import Mathlib

/-!
Verification development for a Metal-header source-text generator
(`GEMMHeaders.cpp`). The file shallowly embeds:

* the `createMetalSimdgroupMatrixStorage` generator — its descriptor type,
  preconditions, address-string construction, two-part/one-part access
  blocks, block formatting and body assembly;
* the `morton_order` lane-to-coordinate function emitted in the header;
* the semantics of the emitted address expressions and of the emitted
  `apply_offset` helper, in fixed-width unsigned arithmetic;
* the semantics of the `simdgroup_event::async_copy` tiled copies emitted
  by `createMetalSimdgroupEvent` (forward: device → threadgroup with
  clamping; reverse: threadgroup → device with truncation).

Machine integers are modelled as `Nat` with explicit `% 2^w` where
wraparound can occur.  Curly braces and apostrophes inside generated text
are written with `\x7b`, `\x7d` and `\x27` escapes; the denoted strings are
byte-identical to the generator's output.
-/

namespace MFA

/-- The two address spaces of the generator (`enum class AddressSpace`). -/
inductive AddressSpace
  | device
  | threadgroup
deriving DecidableEq

/-- `keyword`: the Metal keyword for an address space. -/
def keyword : AddressSpace → String
  | AddressSpace.device => "device"
  | AddressSpace.threadgroup => "threadgroup"

/-- `offsetType`: the Metal offset type for an address space
(uint for device, ushort for threadgroup). -/
def offsetType : AddressSpace → String
  | AddressSpace.device => "uint"
  | AddressSpace.threadgroup => "ushort"

/-- The two generated operations (`enum class Action`). -/
inductive Action
  | load
  | store
deriving DecidableEq

/-- `struct MemoryAccessDescriptor`: three `std::optional` fields plus a
plain integer indentation count defaulting to 0 (the count is `int64_t` in
the source; only nonnegative counts are meaningful to `std::string(n, ' ')`,
so it is modelled as `Nat`). -/
structure MemoryAccessDescriptor where
  action : Option Action := none
  addressSpace : Option AddressSpace := none
  decodingBF16 : Option Bool := none
  indentationSpaceCount : Nat := 0

/-- `createAddress` (closure inside `createMemoryAccess`): renders the
address expression for element `offset` of the lane's packed pair. -/
def createAddress (addressSpace : AddressSpace) (transposed : Bool)
    (offset : Nat) : String :=
  let lineY := offsetType addressSpace ++ "(matrix_origin.y)"
  let lineX0 := "matrix_origin.x + " ++ toString offset
  let lineX := offsetType addressSpace ++ "(" ++ lineX0 ++ ")"
  if transposed then
    lineX ++ " * elements_per_row + " ++ lineY
  else
    lineY ++ " * elements_per_row + " ++ lineX

/-- `createTwoPartAccess`: the statement lines of the two-part
(two independent scalar accesses) path. -/
def createTwoPartAccess (action : Action) (addressSpace : AddressSpace)
    (decodingBF16 : Bool) (transposed : Bool) : List String :=
  let lines := (List.range 2).map (fun laneID =>
    offsetType addressSpace ++ " address" ++ toString laneID ++ " = " ++
      createAddress addressSpace transposed laneID)
  let lines := if action = Action.load then
      if decodingBF16 then
        lines ++ ["bfloat memoryForm0 = src[address0]",
                  "bfloat memoryForm1 = src[address1]"]
      else
        lines ++ ["U memoryForm0 = src[address0]",
                  "U memoryForm1 = src[address1]"]
    else lines
  let lines := if action = Action.load then
      if decodingBF16 then
        lines ++ ["",
                  "bfloat4 registerForm = *(thread bfloat4*)(thread_elements())",
                  "registerForm[1] = memoryForm0",
                  "registerForm[3] = memoryForm1",
                  "((thread bfloat4*)thread_elements())[0] = registerForm"]
      else
        lines ++ ["((thread T*)thread_elements())[0] = T(memoryForm0)",
                  "((thread T*)thread_elements())[1] = T(memoryForm1)"]
    else
      if decodingBF16 then
        lines ++ ["bfloat4 registerForm = *(thread bfloat4*)(thread_elements())",
                  "registerForm[2] = registerForm[1]"]
      else
        lines ++ ["T registerForm0 = ((thread T*)thread_elements())[0]",
                  "T registerForm1 = ((thread T*)thread_elements())[1]"]
  let lines := if action = Action.store then
      if decodingBF16 then
        lines ++ ["dst[address0] = registerForm[2]",
                  "dst[address1] = registerForm[3]"]
      else
        lines ++ ["dst[address0] = U(registerForm0)",
                  "dst[address1] = U(registerForm1)"]
    else lines
  lines

/-- `createOnePartAccess`: the statement lines of the one-part
(single packed 2-wide access) path. -/
def createOnePartAccess (action : Action) (addressSpace : AddressSpace)
    (decodingBF16 : Bool) : List String :=
  let lines := ["auto combinedAddress = " ++ createAddress addressSpace false 0]
  if action = Action.load then
    if decodingBF16 then
      lines ++ ["bfloat2 memoryForm = *(const " ++ keyword addressSpace ++
                  " packed_bfloat2*)(src + combinedAddress)",
                "",
                "bfloat4 registerForm = *(thread bfloat4*)(thread_elements())",
                "((thread float*)&registerForm)[1] = *(thread float*)(&memoryForm)",
                "((thread bfloat*)&registerForm)[1] = memoryForm[0]",
                "((thread bfloat4*)thread_elements())[0] = registerForm"]
    else
      lines ++ ["vec<U, 2> memoryForm = *(const " ++ keyword addressSpace ++
                  " vec<U, 2>*)(src + combinedAddress)",
                "*(thread_elements()) = vec<T, 2>(memoryForm)"]
  else
    if decodingBF16 then
      lines ++ ["bfloat4 registerForm = *(thread bfloat4*)(thread_elements())",
                "registerForm[2] = registerForm[1]",
                "float memoryForm = ((thread float*)&registerForm)[1]",
                "*(" ++ keyword addressSpace ++ " float*)" ++
                  "(dst + combinedAddress) = memoryForm"]
    else
      lines ++ ["vec<T, 2> registerForm = *(thread_elements())",
                "*(" ++ keyword addressSpace ++ " vec<U, 2>*)" ++
                  "(dst + combinedAddress) = vec<U, 2>(registerForm)"]

/-- The whitespace test used by `insertBlockContents`: C `isspace` over the
ASCII range (the fragments contain only ASCII). -/
def isspaceChar (c : Char) : Bool :=
  c = ' ' || c = '\t' || c = '\n' || c = '\x0b' || c = '\x0c' || c = '\r'

/-- The `allCharactersWhitespace` flag loop inside `insertBlockContents`:
starts `true`, cleared by any non-whitespace character. -/
def allCharactersWhitespace (line : String) : Bool :=
  line.toList.foldl (fun acc c => if isspaceChar c then acc else false) true

/-- `insertBlockContents`: appends each block line to the body, two-space
indented; statement lines get a trailing `;`, whitespace-only lines become
a bare `"  "`. -/
def insertBlockContents (body : List String) (block : List String) :
    List String :=
  block.foldl (fun b line =>
    if allCharactersWhitespace line then b ++ ["  "]
    else b ++ ["  " ++ line ++ ";"]) body

/-- The `body` vector of `createMemoryAccess`: the transpose branch, then
either the BF16-codec branch pair or the stride-parity branch pair. -/
def bodyLines (action : Action) (addressSpace : AddressSpace)
    (decodingBF16 : Bool) : List String :=
  let body := ["if (transpose_matrix) \x7b"]
  let body := insertBlockContents body
    (createTwoPartAccess action addressSpace decodingBF16 true)
  if decodingBF16 then
    let blockContents := if action = Action.load then
        createOnePartAccess action addressSpace decodingBF16
      else
        createTwoPartAccess action addressSpace decodingBF16 false
    insertBlockContents (body ++ ["\x7d else \x7b"]) blockContents ++ ["\x7d"]
  else
    insertBlockContents
      (insertBlockContents (body ++ ["\x7d else if (elements_per_row % 2 != 0) \x7b"])
        (createTwoPartAccess action addressSpace decodingBF16 false)
        ++ ["\x7d else \x7b"])
      (createOnePartAccess action addressSpace decodingBF16) ++ ["\x7d"]

/-- The pointer parameter of the generated signature (`pointerArgument`). -/
def pointerArgument (action : Action) (addressSpace : AddressSpace)
    (dataType : String) : String :=
  if action = Action.load then
    "const " ++ keyword addressSpace ++ " " ++ dataType ++ " *src"
  else
    keyword addressSpace ++ " " ++ dataType ++ " *dst"

/-- The `arguments` vector of the generated signature. -/
def argumentsList (action : Action) (addressSpace : AddressSpace)
    (decodingBF16 : Bool) : List String :=
  [(if decodingBF16 then pointerArgument action addressSpace "bfloat"
    else pointerArgument action addressSpace "U"),
   offsetType addressSpace ++ " elements_per_row",
   "ushort2 matrix_origin",
   "bool transpose_matrix = false"]

/-- The body-emission loop of `createMemoryAccess`:
`output += indentation + "  " + line + "\n"` for every body line. -/
def renderBody (indentation : String) (body : List String) : String :=
  body.foldl (fun out line => out ++ (indentation ++ "  " ++ line ++ "\n")) ""

/-- The text produced by `createMemoryAccess` after its preconditions have
passed (warning/template line, signature with comma-separated arguments as
emitted by the argument loop, body, closing brace). -/
def createMemoryAccessCore (action : Action) (addressSpace : AddressSpace)
    (decodingBF16 : Bool) (indentationSpaceCount : Nat) : String :=
  let indentation := String.mk (List.replicate indentationSpaceCount ' ')
  let warning := if decodingBF16 then
      indentation ++ "// WARNING: \x27T\x27 must be \x27float\x27.\n"
    else
      indentation ++ "template <typename U>\n"
  let signature := indentation ++ "METAL_FUNC void" ++
    (if action = Action.load then " load" else " store") ++
    (if decodingBF16 then "_bfloat" else "") ++ "(" ++
    String.intercalate ", " (argumentsList action addressSpace decodingBF16) ++
    ") \x7b\n"
  warning ++ signature ++
    renderBody indentation (bodyLines action addressSpace decodingBF16) ++
    indentation ++ "\x7d\n"

/-- `createMemoryAccess`: the three `CCV_NNC_MFA_PRECONDITION` checks on the
optional fields are modelled as `Option` binds — any unset field aborts the
generation with no output (`none`, standing for InvalidDescriptor). -/
def createMemoryAccess (descriptor : MemoryAccessDescriptor) : Option String := do
  let action ← descriptor.action
  let addressSpace ← descriptor.addressSpace
  let decodingBF16 ← descriptor.decodingBF16
  pure (createMemoryAccessCore action addressSpace decodingBF16
    descriptor.indentationSpaceCount)

/-- `morton_order` (emitted in the matrix-storage header): maps a lane index
to its `(N_in_simd, M_in_simd)` = `(col, row)` base coordinate.  All
quantities are small, so ushort arithmetic is exact `Nat` arithmetic. -/
def morton_order (thread_index_in_simdgroup : Nat) : Nat × Nat :=
  let lane_id := thread_index_in_simdgroup
  let quad_id := lane_id / 4
  let M_floor_of_quadrant := (quad_id / 4) * 4
  let M_in_quadrant := (lane_id / 2) % 4
  let M_in_simd := M_floor_of_quadrant + M_in_quadrant
  let N_floor_of_quadrant := (Nat.land quad_id 2) * 2
  let N_in_quadrant := (lane_id % 2) * 2
  let N_in_simd := N_floor_of_quadrant + N_in_quadrant
  (N_in_simd, M_in_simd)

/-- The bit width of `offsetType`: uint is 32 bits, ushort is 16 bits. -/
def offsetWidth : AddressSpace → Nat
  | AddressSpace.device => 32
  | AddressSpace.threadgroup => 16

/-- Value semantics of the address expression rendered by `createAddress`,
in the wraparound unsigned arithmetic of the offset type of width `w`:
`offsetType(matrix_origin.y)` and `offsetType(matrix_origin.x + offset)`
truncate to `w` bits, and the multiply-add is carried out modulo `2^w`
(for ushort the intermediate arithmetic promotes, but the result is stored
into a `w`-bit `address` variable, so the net effect is reduction mod
`2^w`). -/
def evalAddress (w : Nat) (transposed : Bool) (offset x y s : Nat) : Nat :=
  let cy := y % 2 ^ w
  let cx := (x + offset) % 2 ^ w
  if transposed then (cx * s + cy) % 2 ^ w else (cy * s + cx) % 2 ^ w

/-- Modelled from the spec (§4.3 Address formula), for comparison with the
code-derived `evalAddress`:
`transposedAddress(k) = (origin.x + k) * stride + origin.y`, evaluated in
the `w`-bit unsigned arithmetic of the offset type. -/
def transposedAddress (w k x y s : Nat) : Nat :=
  ((x + k) * s + y) % 2 ^ w

/-- Modelled from the spec (§4.3 Address formula), for comparison with the
code-derived `evalAddress`:
`nonTransposedAddress(k) = origin.y * stride + (origin.x + k)`, evaluated
in the `w`-bit unsigned arithmetic of the offset type. -/
def nonTransposedAddress (w k x y s : Nat) : Nat :=
  (y * s + (x + k)) % 2 ^ w

/-- The emitted device-space `apply_offset` helper: `matrix_origin` is
`uint2` and `elements_per_row` is `uint`, so the product
`matrix_origin.x * elements_per_row` (resp. `.y`) is computed modulo
`2^32` and only the truncated product is widened to `ulong` before the
other origin component is added. -/
def apply_offset_device (x y elements_per_row : Nat)
    (transpose_matrix : Bool) : Nat :=
  if transpose_matrix then
    (x * elements_per_row) % 2 ^ 32 + y
  else
    (y * elements_per_row) % 2 ^ 32 + x

/-- `simdgroup_async_copy_clamp_mode` from the emitted event header. -/
inductive ClampMode
  | clampToZero
  | clampToEdge
deriving DecidableEq

/-- Pointwise store `dst[i] = v` on a flat memory modelled as `Nat → α`. -/
def writeMem {α : Type} (m : Nat → α) (i : Nat) (v : α) : Nat → α :=
  fun j => if j = i then v else m j

/-- The double loop of the forward tiled copy, over the already
transpose-swapped destination extent `(ddx, ddy)` and source extent
`(sdx, sdy)`: every destination cell is written with the in-bounds source
cell, the edge-clamped source cell, or `T(0)`.  The flattened `ulong`
indices `y * elements_per_row + x` cannot exceed `2^64` for arguments in
the range of their `ushort`/`uint` parameter types, so plain `Nat`
arithmetic is exact.  The store is hoisted out of the three branches of
the source; the written value is unchanged. -/
def forwardCore {α : Type} [Zero α] (dst : Nat → α) (dstEpr ddx ddy : Nat)
    (src : Nat → α) (srcEpr sdx sdy : Nat) (clamp_mode : ClampMode) :
    Nat → α :=
  (List.range ddy).foldl (fun m y =>
    (List.range ddx).foldl (fun m x =>
      writeMem m (y * dstEpr + x)
        (if x < sdx ∧ y < sdy then
          src (y * srcEpr + x)
        else if clamp_mode = ClampMode.clampToEdge ∧ 0 < sdx ∧ 0 < sdy then
          src (min y (sdy - 1) * srcEpr + min x (sdx - 1))
        else
          0)) m) dst

/-- The forward tiled `simdgroup_event::async_copy`
(device → threadgroup) emitted by `createMetalSimdgroupEvent`:
transpose swaps both tile extents, then the clamped copy loops run. -/
def asyncCopyForward {α : Type} [Zero α] (dst : Nat → α) (dstEpr : Nat)
    (dstDims : Nat × Nat) (src : Nat → α) (srcEpr : Nat)
    (srcDims : Nat × Nat) (transpose_matrix : Bool) (clamp_mode : ClampMode) :
    Nat → α :=
  let sd := if transpose_matrix then (srcDims.2, srcDims.1) else srcDims
  let dd := if transpose_matrix then (dstDims.2, dstDims.1) else dstDims
  forwardCore dst dstEpr dd.1 dd.2 src srcEpr sd.1 sd.2 clamp_mode

/-- The double loop of the reverse tiled copy over the truncated overlap
`tile_x = min(dst, src)` / `tile_y = min(dst, src)` of the already
transpose-swapped extents: same-coordinate source to destination. -/
def reverseCore {α : Type} (dst : Nat → α) (dstEpr : Nat) (src : Nat → α)
    (srcEpr tile_x tile_y : Nat) : Nat → α :=
  (List.range tile_y).foldl (fun m y =>
    (List.range tile_x).foldl (fun m x =>
      writeMem m (y * dstEpr + x) (src (y * srcEpr + x))) m) dst

/-- The reverse tiled `simdgroup_event::async_copy`
(threadgroup → device) emitted by `createMetalSimdgroupEvent`:
transpose swaps both tile extents, and only the elementwise minimum of the
two extents is copied. -/
def asyncCopyReverse {α : Type} (dst : Nat → α) (dstEpr : Nat)
    (dstDims : Nat × Nat) (src : Nat → α) (srcEpr : Nat)
    (srcDims : Nat × Nat) (transpose_matrix : Bool) : Nat → α :=
  let sd := if transpose_matrix then (srcDims.2, srcDims.1) else srcDims
  let dd := if transpose_matrix then (dstDims.2, dstDims.1) else dstDims
  reverseCore dst dstEpr src srcEpr (min dd.1 sd.1) (min dd.2 sd.2)

/-- The list of destination cells `(x, y)` with `x < X`, `y < Y` visited by
the copy loops, in loop order (row-major, `y` outer). -/
def cells (X : Nat) : Nat → List (Nat × Nat)
  | 0 => []
  | Y + 1 => cells X Y ++ (List.range X).map (fun x => (x, Y))

/-- The statement lines formatted by the body-insertion pass: statement
fragments get a two-space indent and a trailing `;`, whitespace-only
fragments become a bare blank line. -/
def formattedBlock (block : List String) : List String :=
  block.map (fun line =>
    if line.toList.all isspaceChar then "  " else "  " ++ line ++ ";")

/-- The Swift-style multiline literal returned by createMetalSimdgroupEvent (source lines 8-138). -/
def simdgroupEventText : String :=
  "// -*- Metal -*-\n" ++
  "//===-- metal_simdgroup_event ---------------------------------------------===//\n" ++
  "// Copyright (c) 2024 Philip Turner. See MIT LICENSE\n" ++
  "//===----------------------------------------------------------------------===//\n" ++
  "\n" ++
  "#ifndef __METAL_SIMDGROUP_EVENT\n" ++
  "#define __METAL_SIMDGROUP_EVENT\n" ++
  "\n" ++
  "using namespace metal;\n" ++
  "\n" ++
  "enum class simdgroup_async_copy_clamp_mode \x7b\n" ++
  "  clamp_to_zero = 0,\n" ++
  "  clamp_to_edge = 1\n" ++
  "\x7d;\n" ++
  "\n" ++
  "// NOTE:\n" ++
  "// This is a \"no-asm\" compatibility implementation.\n" ++
  "// It preserves the API surface used by the kernels, but does NOT overlap copy\n" ++
  "// latency with compute (it is synchronous).\n" ++
  "struct simdgroup_event \x7b\n" ++
  "  METAL_FUNC simdgroup_event() thread \x7b\x7d\n" ++
  "\n" ++
  "  template <typename T>\n" ++
  "  METAL_FUNC void async_copy(\n" ++
  "    threadgroup T *dst,\n" ++
  "    const device T *src,\n" ++
  "    ulong n_elements\n" ++
  "  ) thread \x7b\n" ++
  "    for (ulong i = 0; i < n_elements; ++i) \x7b\n" ++
  "      dst[i] = src[i];\n" ++
  "    \x7d\n" ++
  "  \x7d\n" ++
  "\n" ++
  "  template <typename T>\n" ++
  "  METAL_FUNC void async_copy(\n" ++
  "    device T *dst,\n" ++
  "    const threadgroup T *src,\n" ++
  "    ulong n_elements\n" ++
  "  ) thread \x7b\n" ++
  "    for (ulong i = 0; i < n_elements; ++i) \x7b\n" ++
  "      dst[i] = src[i];\n" ++
  "    \x7d\n" ++
  "  \x7d\n" ++
  "\n" ++
  "  template <typename T>\n" ++
  "  METAL_FUNC void async_copy(\n" ++
  "    // Destination\n" ++
  "    threadgroup T *dst,\n" ++
  "    ushort dst_elements_per_row,\n" ++
  "    ushort2 dst_tile_dimensions,\n" ++
  "\n" ++
  "    // Source\n" ++
  "    const device T *src,\n" ++
  "    uint src_elements_per_row,\n" ++
  "    ushort2 src_tile_dimensions,\n" ++
  "\n" ++
  "    // Other\n" ++
  "    bool transpose_matrix = false,\n" ++
  "    simdgroup_async_copy_clamp_mode clamp_mode =\n" ++
  "      simdgroup_async_copy_clamp_mode::clamp_to_zero\n" ++
  "  ) thread \x7b\n" ++
  "    // Match the existing behavior: when transpose_matrix is true, we swap the\n" ++
  "    // tile dims (we do NOT reorder elements; downstream addressing still uses\n" ++
  "    // the transpose flag).\n" ++
  "    if (transpose_matrix) \x7b\n" ++
  "      src_tile_dimensions = src_tile_dimensions.yx;\n" ++
  "      dst_tile_dimensions = dst_tile_dimensions.yx;\n" ++
  "    \x7d\n" ++
  "\n" ++
  "    // Copy dst_tile_dimensions; clamp out-of-bounds src reads.\n" ++
  "    for (ushort y = 0; y < dst_tile_dimensions.y; ++y) \x7b\n" ++
  "      for (ushort x = 0; x < dst_tile_dimensions.x; ++x) \x7b\n" ++
  "        bool in_bounds = (x < src_tile_dimensions.x) && (y < src_tile_dimensions.y);\n" ++
  "\n" ++
  "        ulong dst_index = ulong(y) * ulong(dst_elements_per_row) + ulong(x);\n" ++
  "\n" ++
  "        if (in_bounds) \x7b\n" ++
  "          ulong src_index = ulong(y) * ulong(src_elements_per_row) + ulong(x);\n" ++
  "          dst[dst_index] = src[src_index];\n" ++
  "        \x7d else if (clamp_mode == simdgroup_async_copy_clamp_mode::clamp_to_edge &&\n" ++
  "                   src_tile_dimensions.x > 0 && src_tile_dimensions.y > 0) \x7b\n" ++
  "          ushort sx = min(x, ushort(src_tile_dimensions.x - 1));\n" ++
  "          ushort sy = min(y, ushort(src_tile_dimensions.y - 1));\n" ++
  "          ulong src_index = ulong(sy) * ulong(src_elements_per_row) + ulong(sx);\n" ++
  "          dst[dst_index] = src[src_index];\n" ++
  "        \x7d else \x7b\n" ++
  "          dst[dst_index] = T(0);\n" ++
  "        \x7d\n" ++
  "      \x7d\n" ++
  "    \x7d\n" ++
  "  \x7d\n" ++
  "\n" ++
  "  template <typename T>\n" ++
  "  METAL_FUNC void async_copy(\n" ++
  "    // Destination\n" ++
  "    device T *dst,\n" ++
  "    uint dst_elements_per_row,\n" ++
  "    ushort2 dst_tile_dimensions,\n" ++
  "\n" ++
  "    // Source\n" ++
  "    const threadgroup T *src,\n" ++
  "    ushort src_elements_per_row,\n" ++
  "    ushort2 src_tile_dimensions,\n" ++
  "\n" ++
  "    // Other\n" ++
  "    bool transpose_matrix = false\n" ++
  "  ) thread \x7b\n" ++
  "    if (transpose_matrix) \x7b\n" ++
  "      src_tile_dimensions = src_tile_dimensions.yx;\n" ++
  "      dst_tile_dimensions = dst_tile_dimensions.yx;\n" ++
  "    \x7d\n" ++
  "\n" ++
  "    // Copy the overlap; avoid OOB if someone passes mismatched tile dims.\n" ++
  "    ushort tile_x = min(dst_tile_dimensions.x, src_tile_dimensions.x);\n" ++
  "    ushort tile_y = min(dst_tile_dimensions.y, src_tile_dimensions.y);\n" ++
  "\n" ++
  "    for (ushort y = 0; y < tile_y; ++y) \x7b\n" ++
  "      for (ushort x = 0; x < tile_x; ++x) \x7b\n" ++
  "        ulong dst_index = ulong(y) * ulong(dst_elements_per_row) + ulong(x);\n" ++
  "        ulong src_index = ulong(y) * ulong(src_elements_per_row) + ulong(x);\n" ++
  "        dst[dst_index] = src[src_index];\n" ++
  "      \x7d\n" ++
  "    \x7d\n" ++
  "  \x7d\n" ++
  "\n" ++
  "  METAL_FUNC static void wait(int /*count*/, thread simdgroup_event* /*events*/) \x7b\n" ++
  "    // No-op for synchronous implementation.\n" ++
  "  \x7d\n" ++
  "\x7d;\n" ++
  "\n" ++
  "#endif // __METAL_SIMDGROUP_EVENT"

/-- The first raw-string section of the matrix-storage header (source lines 456-533). -/
def matrixStorageFirstSection : String :=
  "\n" ++
  "// -*- Metal -*-\n" ++
  "//===-- metal_simdgroup_matrix_storage ------------------------------------===//\n" ++
  "// Copyright (c) 2024 Philip Turner. See MIT LICENSE\n" ++
  "//===----------------------------------------------------------------------===//\n" ++
  "\n" ++
  "#ifndef __METAL_SIMDGROUP_MATRIX_STORAGE\n" ++
  "#define __METAL_SIMDGROUP_MATRIX_STORAGE\n" ++
  "\n" ++
  "// The layout of threads within a SIMD matrix.\n" ++
  "//\n" ++
  "//  0  0  1  1  8  8  9  9\n" ++
  "//  2  2  3  3 10 10 11 11\n" ++
  "//  4  4  5  5 12 12 13 13\n" ++
  "//  6  6  7  7 14 14 15 15\n" ++
  "// 16 16 17 17 24 24 25 25\n" ++
  "// 18 18 19 19 26 26 27 27\n" ++
  "// 20 20 21 21 28 28 29 29\n" ++
  "// 22 22 23 23 30 30 31 31\n" ++
  "//\n" ++
  "// This is Morton order, a method for coalescing data accesses. It is used\n" ++
  "// in a variety of contexts, from ray tracing acceleration structures, to\n" ++
  "// nodal-point Laplacians, to sorting large lattices of atoms.\n" ++
  "//\n" ++
  "// Source: https://patents.google.com/patent/US11256518B2\n" ++
  "METAL_FUNC static ushort2 morton_order(ushort thread_index_in_simdgroup) \x7b\n" ++
  "  ushort lane_id = thread_index_in_simdgroup;\n" ++
  "  ushort quad_id = lane_id / 4;\n" ++
  "  \n" ++
  "  constexpr ushort QUADRANT_SPAN_M = 4;\n" ++
  "  constexpr ushort THREADS_PER_QUADRANT = 8;\n" ++
  "  ushort M_floor_of_quadrant = (quad_id / 4) * QUADRANT_SPAN_M;\n" ++
  "  ushort M_in_quadrant = (lane_id / 2) % (THREADS_PER_QUADRANT / 2);\n" ++
  "  ushort M_in_simd = M_floor_of_quadrant + M_in_quadrant;\n" ++
  "  \n" ++
  "  ushort N_floor_of_quadrant = (quad_id & 2) * 2; // 0 or 4\n" ++
  "  ushort N_in_quadrant = (lane_id % 2) * 2; // 0 or 2\n" ++
  "  ushort N_in_simd = N_floor_of_quadrant + N_in_quadrant;\n" ++
  "  \n" ++
  "  return ushort2(N_in_simd, M_in_simd);\n" ++
  "\x7d\n" ++
  "\n" ++
  "#pragma METAL internals : enable\n" ++
  "namespace metal\n" ++
  "\x7b\n" ++
  "  template <typename T>\n" ++
  "  struct simdgroup_matrix_storage \x7b\n" ++
  "    typedef vec<T, 64> storage_type;\n" ++
  "    \n" ++
  "    storage_type t;\n" ++
  "    \n" ++
  "    METAL_FUNC thread vec<T, 2>* thread_elements() thread \x7b\n" ++
  "      return reinterpret_cast<thread vec<T, 2>*>(&t);\n" ++
  "    \x7d\n" ++
  "    \n" ++
  "    METAL_FUNC simdgroup_matrix_storage() thread = default;\n" ++
  "    \n" ++
  "    METAL_FUNC simdgroup_matrix_storage(vec<T, 2> thread_elements) thread \x7b\n" ++
  "      *(this->thread_elements()) = thread_elements;\n" ++
  "    \x7d\n" ++
  "\n" ++
  "    METAL_FUNC static device T* apply_offset(device T *src, uint elements_per_row, uint2 matrix_origin, bool transpose_matrix = false) \x7b\n" ++
  "      if (transpose_matrix) \x7b\n" ++
  "        return src + ulong(matrix_origin.x * elements_per_row) + matrix_origin.y;\n" ++
  "      \x7d else \x7b\n" ++
  "        return src + ulong(matrix_origin.y * elements_per_row) + matrix_origin.x;\n" ++
  "      \x7d\n" ++
  "    \x7d\n" ++
  "    \n" ++
  "    METAL_FUNC static threadgroup T* apply_offset(threadgroup T *src, ushort elements_per_row, ushort2 matrix_origin, bool transpose_matrix = false) \x7b\n" ++
  "      if (transpose_matrix) \x7b\n" ++
  "        return src + matrix_origin.x * elements_per_row + matrix_origin.y;\n" ++
  "      \x7d else \x7b\n" ++
  "        return src + matrix_origin.y * elements_per_row + matrix_origin.x;\n" ++
  "      \x7d\n" ++
  "    \x7d\n" ++
  "\n"

/-- The last raw-string section of the matrix-storage header (source lines 556-570). -/
def matrixStorageLastSection : String :=
  "\n" ++
  "    template <typename U, typename V>\n" ++
  "    METAL_FUNC void multiply(simdgroup_matrix_storage<U> a, simdgroup_matrix_storage<V> b, bool accumulate = true) \x7b\n" ++
  "      if (!accumulate) \x7b\n" ++
  "        *(thread_elements()) = vec<T, 2>(0);\n" ++
  "      \x7d\n" ++
  "      t = __metal_simdgroup_matrix_8x8_multiply_accumulate(a.t, b.t, t, typename simdgroup_matrix_storage<T>::storage_type());\n" ++
  "    \x7d\n" ++
  "  \x7d;\n" ++
  "\x7d // namespace metal\n" ++
  "#pragma METAL internals : disable\n" ++
  "\n" ++
  "#endif // __METAL_SIMDGROUP_MATRIX_STORAGE\n" ++
  "\n"

/-- createMetalSimdgroupEvent: returns the fixed event-header text. -/
def createMetalSimdgroupEvent : String :=
  simdgroupEventText

/-- createMetalSimdgroupMatrixStorage: the first raw-string section, then the
eight createMemoryAccess variants in loop order (action outer, address space
middle, decodingBF16 inner, indentationSpaceCount = 4), then the last
section.  The Option monad threads the InvalidDescriptor failure exactly as
the preconditions would abort the source. -/
def createMetalSimdgroupMatrixStorage : Option String := do
  let withAccess ← [Action.load, Action.store].foldlM (fun (out : String) action =>
    [AddressSpace.device, AddressSpace.threadgroup].foldlM (fun out addressSpace =>
      [false, true].foldlM (fun out decodingBF16 => do
        let fn ← createMemoryAccess
          { action := some action, addressSpace := some addressSpace,
            decodingBF16 := some decodingBF16, indentationSpaceCount := 4 }
        pure (out ++ fn ++ "\n")) out) out) matrixStorageFirstSection
  pure (withAccess ++ matrixStorageLastSection)

/-! ## Helper lemmas -/

lemma foldl_write_ne {α β : Type} (idx : β → Nat) (val : β → α) :
    ∀ (l : List β) (m : Nat → α) (i : Nat), (∀ b ∈ l, idx b ≠ i) →
      (l.foldl (fun m b => writeMem m (idx b) (val b)) m) i = m i := by
  intro l
  induction l with
  | nil => intro m i _; rfl
  | cons a t ih =>
    intro m i h
    simp only [List.foldl_cons]
    rw [ih _ i (fun b hb => h b (List.mem_cons_of_mem _ hb))]
    have hne : i ≠ idx a := fun he => h a (List.mem_cons_self _ _) he.symm
    simp [writeMem, hne]

lemma foldl_write_last {α β : Type} (idx : β → Nat) (val : β → α) :
    ∀ (l : List β) (m : Nat → α) (b0 : β), b0 ∈ l →
      (∀ b ∈ l, idx b = idx b0 → val b = val b0) →
      (l.foldl (fun m b => writeMem m (idx b) (val b)) m) (idx b0) = val b0 := by
  intro l
  induction l with
  | nil => intro m b0 h; exact absurd h (List.not_mem_nil _)
  | cons a t ih =>
    intro m b0 hmem huniq
    simp only [List.foldl_cons]
    by_cases h : ∃ b ∈ t, idx b = idx b0
    · obtain ⟨b1, hb1, hib⟩ := h
      have hval : val b1 = val b0 :=
        huniq b1 (List.mem_cons_of_mem _ hb1) hib
      have huniq1 : ∀ b ∈ t, idx b = idx b1 → val b = val b1 := by
        intro b hb hi
        rw [huniq b (List.mem_cons_of_mem _ hb) (hib ▸ hi), hval]
      have := ih (writeMem m (idx a) (val a)) b1 hb1 huniq1
      rw [← hib, this, hval]
    · push_neg at h
      rcases List.mem_cons.1 hmem with rfl | hb0t
      · rw [foldl_write_ne idx val t _ _ (fun b hb => h b hb)]
        simp [writeMem]
      · exact absurd rfl (h b0 hb0t)

lemma mem_cells {X : Nat} : ∀ {Y x y : Nat}, (x, y) ∈ cells X Y ↔ x < X ∧ y < Y := by
  intro Y
  induction Y with
  | zero => intro x y; simp [cells]
  | succ Y ih =>
    intro x y
    simp only [cells, List.mem_append, List.mem_map, List.mem_range, ih,
      Prod.mk.injEq]
    constructor
    · rintro (⟨h1, h2⟩ | ⟨a, ha, rfl, rfl⟩)
      · exact ⟨h1, Nat.lt_succ_of_lt h2⟩
      · exact ⟨ha, Nat.lt_succ_self _⟩
    · rintro ⟨h1, h2⟩
      rcases Nat.lt_succ_iff_lt_or_eq.1 h2 with h2 | rfl
      · exact Or.inl ⟨h1, h2⟩
      · exact Or.inr ⟨x, h1, rfl, rfl⟩

lemma nested_foldl_write {α : Type} (idx : Nat × Nat → Nat) (val : Nat × Nat → α) :
    ∀ (Y X : Nat) (m : Nat → α),
      (List.range Y).foldl (fun m y =>
        (List.range X).foldl (fun m x =>
          writeMem m (idx (x, y)) (val (x, y))) m) m
      = (cells X Y).foldl (fun m p => writeMem m (idx p) (val p)) m := by
  intro Y
  induction Y with
  | zero => intro X m; rfl
  | succ Y ih =>
    intro X m
    rw [List.range_succ, List.foldl_append, cells, List.foldl_append,
      List.foldl_map, ih]
    simp

lemma flat_index_inj {epr x1 y1 x2 y2 : Nat} (h1 : x1 < epr) (h2 : x2 < epr)
    (h : y1 * epr + x1 = y2 * epr + x2) : x1 = x2 ∧ y1 = y2 := by
  have hepr : 0 < epr := Nat.lt_of_le_of_lt (Nat.zero_le x1) h1
  rw [Nat.add_comm (y1 * epr) x1, Nat.add_comm (y2 * epr) x2] at h
  have hx : x1 = x2 := by
    have := congrArg (fun t => t % epr) h
    simpa [Nat.add_mul_mod_self_right, Nat.mod_eq_of_lt h1,
      Nat.mod_eq_of_lt h2] using this
  subst hx
  refine ⟨rfl, ?_⟩
  exact Nat.eq_of_mul_eq_mul_right hepr (Nat.add_left_cancel h)

lemma forwardCore_read {α : Type} [Zero α] (dst src : Nat → α)
    (dstEpr srcEpr ddx ddy sdx sdy : Nat) (cm : ClampMode) (x y : Nat)
    (hx : x < ddx) (hy : y < ddy) (he : ddx ≤ dstEpr) :
    forwardCore dst dstEpr ddx ddy src srcEpr sdx sdy cm (y * dstEpr + x)
    = (if x < sdx ∧ y < sdy then
        src (y * srcEpr + x)
      else if cm = ClampMode.clampToEdge ∧ 0 < sdx ∧ 0 < sdy then
        src (min y (sdy - 1) * srcEpr + min x (sdx - 1))
      else
        0) := by
  have hb := nested_foldl_write (α := α)
    (fun p => p.2 * dstEpr + p.1)
    (fun p => if p.1 < sdx ∧ p.2 < sdy then
        src (p.2 * srcEpr + p.1)
      else if cm = ClampMode.clampToEdge ∧ 0 < sdx ∧ 0 < sdy then
        src (min p.2 (sdy - 1) * srcEpr + min p.1 (sdx - 1))
      else
        0) ddy ddx dst
  have h1 : forwardCore dst dstEpr ddx ddy src srcEpr sdx sdy cm (y * dstEpr + x)
      = (cells ddx ddy).foldl (fun m p => writeMem m (p.2 * dstEpr + p.1)
          (if p.1 < sdx ∧ p.2 < sdy then
            src (p.2 * srcEpr + p.1)
          else if cm = ClampMode.clampToEdge ∧ 0 < sdx ∧ 0 < sdy then
            src (min p.2 (sdy - 1) * srcEpr + min p.1 (sdx - 1))
          else
            0)) dst (y * dstEpr + x) := congrFun hb _
  rw [h1]
  exact foldl_write_last (fun p => p.2 * dstEpr + p.1) _ (cells ddx ddy) dst (x, y)
    (mem_cells.2 ⟨hx, hy⟩)
    (by
      rintro ⟨x', y'⟩ hb' hib
      obtain ⟨hx', hy'⟩ := mem_cells.1 hb'
      obtain ⟨hxe, hye⟩ := flat_index_inj (Nat.lt_of_lt_of_le hx' he)
        (Nat.lt_of_lt_of_le hx he) hib
      simp only at hxe hye
      rw [hxe, hye])

lemma reverseCore_read_in {α : Type} (dst src : Nat → α)
    (dstEpr srcEpr tx ty : Nat) (x y : Nat)
    (hx : x < tx) (hy : y < ty) (he : tx ≤ dstEpr) :
    reverseCore dst dstEpr src srcEpr tx ty (y * dstEpr + x)
    = src (y * srcEpr + x) := by
  have hb := nested_foldl_write (α := α)
    (fun p => p.2 * dstEpr + p.1) (fun p => src (p.2 * srcEpr + p.1)) ty tx dst
  have h1 : reverseCore dst dstEpr src srcEpr tx ty (y * dstEpr + x)
      = (cells tx ty).foldl (fun m p => writeMem m (p.2 * dstEpr + p.1)
          (src (p.2 * srcEpr + p.1))) dst (y * dstEpr + x) := congrFun hb _
  rw [h1]
  exact foldl_write_last (fun p => p.2 * dstEpr + p.1) _ (cells tx ty) dst (x, y)
    (mem_cells.2 ⟨hx, hy⟩)
    (by
      rintro ⟨x', y'⟩ hb' hib
      obtain ⟨hx', hy'⟩ := mem_cells.1 hb'
      obtain ⟨hxe, hye⟩ := flat_index_inj (Nat.lt_of_lt_of_le hx' he)
        (Nat.lt_of_lt_of_le hx he) hib
      simp only at hxe hye
      rw [hxe, hye])

lemma reverseCore_read_out {α : Type} (dst src : Nat → α)
    (dstEpr srcEpr tx ty : Nat) (x y : Nat)
    (hxe : x < dstEpr) (he : tx ≤ dstEpr) (hout : tx ≤ x ∨ ty ≤ y) :
    reverseCore dst dstEpr src srcEpr tx ty (y * dstEpr + x)
    = dst (y * dstEpr + x) := by
  have hb := nested_foldl_write (α := α)
    (fun p => p.2 * dstEpr + p.1) (fun p => src (p.2 * srcEpr + p.1)) ty tx dst
  have h1 : reverseCore dst dstEpr src srcEpr tx ty (y * dstEpr + x)
      = (cells tx ty).foldl (fun m p => writeMem m (p.2 * dstEpr + p.1)
          (src (p.2 * srcEpr + p.1))) dst (y * dstEpr + x) := congrFun hb _
  rw [h1]
  apply foldl_write_ne
  rintro ⟨x', y'⟩ hb' hib
  obtain ⟨hx', hy'⟩ := mem_cells.1 hb'
  obtain ⟨hxeq, hyeq⟩ := flat_index_inj (Nat.lt_of_lt_of_le hx' he) hxe hib
  simp only at hxeq hyeq
  rcases hout with hout | hout
  · exact absurd (hxeq ▸ hx') (Nat.not_lt_of_le hout)
  · exact absurd (hyeq ▸ hy') (Nat.not_lt_of_le hout)

lemma bool_foldl_all (p : Char → Bool) :
    ∀ (l : List Char) (b : Bool),
      l.foldl (fun acc c => if p c then acc else false) b = (b && l.all p) := by
  intro l
  induction l with
  | nil => intro b; simp
  | cons c t ih =>
    intro b
    rw [List.foldl_cons]
    cases hpc : p c with
    | false =>
      rw [if_neg (by simp), ih, List.all_cons, hpc]
      simp
    | true =>
      rw [if_pos rfl, ih, List.all_cons, hpc, Bool.true_and]

lemma allCharactersWhitespace_eq (line : String) :
    allCharactersWhitespace line = line.toList.all isspaceChar := by
  unfold allCharactersWhitespace
  rw [bool_foldl_all, Bool.true_and]

lemma insert_foldl (t : List String) :
    ∀ body : List String,
      t.foldl (fun b line =>
        if allCharactersWhitespace line then b ++ ["  "]
        else b ++ ["  " ++ line ++ ";"]) body
      = body ++ formattedBlock t := by
  induction t with
  | nil => intro body; simp [formattedBlock]
  | cons a t ih =>
    intro body
    rw [List.foldl_cons, ih, allCharactersWhitespace_eq]
    have hfb : formattedBlock (a :: t)
        = (if a.toList.all isspaceChar then "  " else "  " ++ a ++ ";")
          :: formattedBlock t := rfl
    rw [hfb]
    by_cases h : a.toList.all isspaceChar = true
    · rw [if_pos h, if_pos h, List.append_assoc, List.singleton_append]
    · rw [if_neg h, if_neg h, List.append_assoc, List.singleton_append]

lemma insertBlockContents_eq (body block : List String) :
    insertBlockContents body block = body ++ formattedBlock block :=
  insert_foldl block body

lemma string_join_cons (a : String) (l : List String) :
    String.join (a :: l) = a ++ String.join l := by
  apply String.ext
  simp

lemma renderBody_eq (ind : String) (body : List String) :
    renderBody ind body
    = String.join (body.map (fun l => ind ++ "  " ++ l ++ "\n")) := by
  suffices h : ∀ (l : List String) (init : String),
      l.foldl (fun out line => out ++ (ind ++ "  " ++ line ++ "\n")) init
      = init ++ String.join (l.map fun line => ind ++ "  " ++ line ++ "\n") by
    simpa [renderBody] using h body ""
  intro l
  induction l with
  | nil => intro init; simp [String.join]
  | cons a t ih =>
    intro init
    simp only [List.foldl_cons, List.map_cons, string_join_cons]
    rw [ih]
    rw [String.append_assoc]

lemma evalAddress_eq (w : Nat) (transposed : Bool) (k x y s : Nat) :
    evalAddress w transposed k x y s
    = if transposed then ((x + k) * s + y) % 2 ^ w
      else (y * s + (x + k)) % 2 ^ w := by
  have h1 : ((x + k) % 2 ^ w * s + y % 2 ^ w) % 2 ^ w
      = ((x + k) * s + y) % 2 ^ w :=
    ((Nat.mod_modEq (x + k) (2 ^ w)).mul_right s).add (Nat.mod_modEq y (2 ^ w))
  have h2 : (y % 2 ^ w * s + (x + k) % 2 ^ w) % 2 ^ w
      = (y * s + (x + k)) % 2 ^ w :=
    ((Nat.mod_modEq y (2 ^ w)).mul_right s).add (Nat.mod_modEq (x + k) (2 ^ w))
  cases transposed <;> simp [evalAddress, h1, h2]

/-! ## Claim theorems -/

/-- Claim C1: the generated load/store body selects access paths exactly per
the branch table: transpose → two-part transposed access; codec off → a
runtime parity branch (two-part non-transposed for odd `elements_per_row`,
one packed access at `nonTransposedAddress(0)` for even); codec on → Load
emits the one-part access unconditionally and Store the two-part access
unconditionally, with no parity branch present. -/
theorem branch_table_conformance :
    ∀ (action : Action) (addressSpace : AddressSpace) (decodingBF16 : Bool),
      (bodyLines action addressSpace decodingBF16
        = ["if (transpose_matrix) \x7b"]
          ++ formattedBlock (createTwoPartAccess action addressSpace decodingBF16 true)
          ++ (if decodingBF16 then
                if action = Action.load then
                  ["\x7d else \x7b"]
                  ++ formattedBlock (createOnePartAccess action addressSpace decodingBF16)
                  ++ ["\x7d"]
                else
                  ["\x7d else \x7b"]
                  ++ formattedBlock (createTwoPartAccess action addressSpace decodingBF16 false)
                  ++ ["\x7d"]
              else
                ["\x7d else if (elements_per_row % 2 != 0) \x7b"]
                ++ formattedBlock (createTwoPartAccess action addressSpace decodingBF16 false)
                ++ ["\x7d else \x7b"]
                ++ formattedBlock (createOnePartAccess action addressSpace decodingBF16)
                ++ ["\x7d"]))
      ∧ (decodingBF16 = true →
          "\x7d else if (elements_per_row % 2 != 0) \x7b"
            ∉ bodyLines action addressSpace decodingBF16)
      ∧ (createOnePartAccess action addressSpace decodingBF16).head?
          = some ("auto combinedAddress = " ++ createAddress addressSpace false 0) := by
  intro action addressSpace decodingBF16
  cases action <;> cases addressSpace <;> cases decodingBF16 <;>
    exact ⟨by decide, by decide, by decide⟩

/-- Claim C1 witness: for the Store/Narrow/codec-on variant, the parity
branch header is absent from the generated body. -/
theorem branch_table_conformance_witness :
    "\x7d else if (elements_per_row % 2 != 0) \x7b"
      ∉ bodyLines Action.store AddressSpace.threadgroup true :=
  (branch_table_conformance Action.store AddressSpace.threadgroup true).2.1 rfl

/-- Claim C2: the emitted address expression computes, in the offset type's
fixed-width unsigned arithmetic, `transposedAddress(k) = (origin.x + k) *
stride + origin.y` when the transpose flag is set and `nonTransposedAddress(k)
= origin.y * stride + (origin.x + k)` otherwise, for both memory spaces;
and the rendered strings for k ∈ {0,1} are exactly the generator output. -/
theorem createAddress_conforms :
    (∀ (space : AddressSpace) (k x y s : Nat),
      evalAddress (offsetWidth space) true k x y s
        = transposedAddress (offsetWidth space) k x y s
      ∧ evalAddress (offsetWidth space) false k x y s
        = nonTransposedAddress (offsetWidth space) k x y s)
    ∧ createAddress AddressSpace.device true 0
        = "uint(matrix_origin.x + 0) * elements_per_row + uint(matrix_origin.y)"
    ∧ createAddress AddressSpace.device true 1
        = "uint(matrix_origin.x + 1) * elements_per_row + uint(matrix_origin.y)"
    ∧ createAddress AddressSpace.device false 0
        = "uint(matrix_origin.y) * elements_per_row + uint(matrix_origin.x + 0)"
    ∧ createAddress AddressSpace.device false 1
        = "uint(matrix_origin.y) * elements_per_row + uint(matrix_origin.x + 1)"
    ∧ createAddress AddressSpace.threadgroup true 0
        = "ushort(matrix_origin.x + 0) * elements_per_row + ushort(matrix_origin.y)"
    ∧ createAddress AddressSpace.threadgroup true 1
        = "ushort(matrix_origin.x + 1) * elements_per_row + ushort(matrix_origin.y)"
    ∧ createAddress AddressSpace.threadgroup false 0
        = "ushort(matrix_origin.y) * elements_per_row + ushort(matrix_origin.x + 0)"
    ∧ createAddress AddressSpace.threadgroup false 1
        = "ushort(matrix_origin.y) * elements_per_row + ushort(matrix_origin.x + 1)" := by
  refine ⟨?_, by decide, by decide, by decide, by decide, by decide, by decide,
    by decide, by decide⟩
  intro space k x y s
  constructor
  · rw [evalAddress_eq, if_pos rfl]; rfl
  · rw [evalAddress_eq, if_neg (by simp)]; rfl

/-- Claim C3 (counterexample): the lane-to-coordinate map does not yield 16
distinct pairs each produced by exactly 2 lane indices — it yields 32
distinct pairs (the dedup length is 32, not 16). -/
theorem morton_claim_counterexample :
    ¬ (((List.range 32).map morton_order).dedup.length = 16
       ∧ ∀ p ∈ (List.range 32).map morton_order,
          ((List.range 32).map morton_order).count p = 2) := by decide

/-- Claim C3 (amended): the lane-to-coordinate map applied to every lane
index in 0..31 yields 32 distinct (col,row) pairs, each produced by exactly
1 lane index, and covers all 64 cells of an 8×8 grid when each pair's
2-wide run (columns col and col+1 at that row) is included. -/
theorem morton_order_layout :
    ((List.range 32).map morton_order).dedup.length = 32
    ∧ (∀ p ∈ (List.range 32).map morton_order,
        ((List.range 32).map morton_order).count p = 1)
    ∧ (∀ c < 8, ∀ r < 8, ∃ i < 32, (morton_order i).2 = r
        ∧ ((morton_order i).1 = c ∨ (morton_order i).1 + 1 = c)) := by decide

/-- Claim C3 witness: lane 3's pair (2,1) occurs exactly once, and cell
(3,7) is covered by some lane's 2-wide run. -/
theorem morton_order_layout_witness :
    ((List.range 32).map morton_order).count (2, 1) = 1
    ∧ (∃ i < 32, (morton_order i).2 = 7
        ∧ ((morton_order i).1 = 3 ∨ (morton_order i).1 + 1 = 3)) :=
  ⟨morton_order_layout.2.1 (2, 1) (by decide),
   morton_order_layout.2.2 3 (by decide) 7 (by decide)⟩

/-- Claim C4: in the forward tiled copy, for every destination cell (x,y)
within the transpose-swapped destination extent (with rows laid out
disjointly, i.e. the destination extent fits the destination row stride):
an in-source-extent cell is copied from the same coordinates; otherwise
under ClampToEdge with both source extents positive the source cell at
(min(x, sdx−1), min(y, sdy−1)) is copied; in every other case zero is
written. -/
theorem async_copy_forward_conforms {α : Type} [Zero α]
    (dst src : Nat → α) (dstEpr srcEpr : Nat) (dstDims srcDims : Nat × Nat)
    (tp : Bool) (cm : ClampMode) (sdx sdy ddx ddy x y : Nat)
    (hsd : (if tp then (srcDims.2, srcDims.1) else srcDims) = (sdx, sdy))
    (hdd : (if tp then (dstDims.2, dstDims.1) else dstDims) = (ddx, ddy))
    (hx : x < ddx) (hy : y < ddy) (he : ddx ≤ dstEpr) :
    asyncCopyForward dst dstEpr dstDims src srcEpr srcDims tp cm (y * dstEpr + x)
    = (if x < sdx ∧ y < sdy then
        src (y * srcEpr + x)
      else if cm = ClampMode.clampToEdge ∧ 0 < sdx ∧ 0 < sdy then
        src (min y (sdy - 1) * srcEpr + min x (sdx - 1))
      else
        0) := by
  have hac : asyncCopyForward dst dstEpr dstDims src srcEpr srcDims tp cm
      = forwardCore dst dstEpr ddx ddy src srcEpr sdx sdy cm := by
    simp only [asyncCopyForward]
    rw [hsd, hdd]
  rw [hac]
  exact forwardCore_read dst src dstEpr srcEpr ddx ddy sdx sdy cm x y hx hy he

/-- Claim C4 witness: destination 4×4 tile with row stride 4, source 2×2
tile, ClampToEdge; the out-of-source cell (3,2) receives the edge-clamped
source cell (1,1). -/
theorem async_copy_forward_conforms_witness :
    asyncCopyForward (fun _ => (-1 : Int)) 4 (4, 4) (fun i => (i : Int)) 2
      (2, 2) false ClampMode.clampToEdge (2 * 4 + 3)
    = (fun i => (i : Int)) (min 2 1 * 2 + min 3 1) := by
  have h := async_copy_forward_conforms (fun _ => (-1 : Int))
    (fun i => (i : Int)) 4 2 (4, 4) (2, 2) false ClampMode.clampToEdge
    2 2 4 4 3 2 rfl rfl (by decide) (by decide) (by decide)
  rw [h]
  decide

/-- Claim C5: in the reverse tiled copy, exactly the cells within the
elementwise minimum of the transpose-swapped destination and source extents
are written (same-coordinate source to destination); every destination cell
outside that overlap (at a well-defined column, x < row stride) is left
untouched — no clamp, no zero-fill. -/
theorem async_copy_reverse_conforms {α : Type}
    (dst src : Nat → α) (dstEpr srcEpr : Nat) (dstDims srcDims : Nat × Nat)
    (tp : Bool) (sdx sdy ddx ddy x y : Nat)
    (hsd : (if tp then (srcDims.2, srcDims.1) else srcDims) = (sdx, sdy))
    (hdd : (if tp then (dstDims.2, dstDims.1) else dstDims) = (ddx, ddy))
    (he : min ddx sdx ≤ dstEpr) :
    (x < min ddx sdx → y < min ddy sdy →
      asyncCopyReverse dst dstEpr dstDims src srcEpr srcDims tp (y * dstEpr + x)
      = src (y * srcEpr + x))
    ∧ (x < dstEpr → (min ddx sdx ≤ x ∨ min ddy sdy ≤ y) →
      asyncCopyReverse dst dstEpr dstDims src srcEpr srcDims tp (y * dstEpr + x)
      = dst (y * dstEpr + x)) := by
  have hac : asyncCopyReverse dst dstEpr dstDims src srcEpr srcDims tp
      = reverseCore dst dstEpr src srcEpr (min ddx sdx) (min ddy sdy) := by
    simp only [asyncCopyReverse]
    rw [hsd, hdd]
  constructor
  · intro hx hy
    rw [hac]
    exact reverseCore_read_in dst src dstEpr srcEpr _ _ x y hx hy he
  · intro hx hout
    rw [hac]
    exact reverseCore_read_out dst src dstEpr srcEpr _ _ x y hx he hout

/-- Claim C5 witness: destination extent (2,2), source extent (4,4)
(the spec's truncation scenario): the overlap cell (1,1) is copied from the
source, and the out-of-overlap cell (2,0) keeps its old destination
value. -/
theorem async_copy_reverse_conforms_witness :
    asyncCopyReverse (fun _ => (-7 : Int)) 3 (2, 2) (fun i => (i : Int)) 4
      (4, 4) false (1 * 3 + 1) = (fun i => (i : Int)) (1 * 4 + 1)
    ∧ asyncCopyReverse (fun _ => (-7 : Int)) 3 (2, 2) (fun i => (i : Int)) 4
      (4, 4) false (0 * 3 + 2) = (fun _ => (-7 : Int)) (0 * 3 + 2) := by
  have h1 := async_copy_reverse_conforms (fun _ => (-7 : Int))
    (fun i => (i : Int)) 3 4 (2, 2) (4, 4) false 4 4 2 2 1 1 rfl rfl (by decide)
  have h2 := async_copy_reverse_conforms (fun _ => (-7 : Int))
    (fun i => (i : Int)) 3 4 (2, 2) (4, 4) false 4 4 2 2 2 0 rfl rfl (by decide)
  exact ⟨h1.1 (by decide) (by decide), h2.2 (by decide) (by decide)⟩

/-- Claim C6: generation returns no output (InvalidDescriptor) exactly when
one of the descriptor's optional fields is unset; a fully-populated
descriptor never triggers the failure.  (The indentation count is a plain
integer with default 0 in the code and can never be unset.) -/
theorem invalid_descriptor_check :
    ∀ d : MemoryAccessDescriptor,
      (createMemoryAccess d = none
        ↔ (d.action = none ∨ d.addressSpace = none ∨ d.decodingBF16 = none)) := by
  rintro ⟨a, s, c, i⟩
  cases a <;> cases s <;> cases c <;> simp [createMemoryAccess]

/-- Claim C7: generation is deterministic — the generators are pure
functions, so two calls on equal inputs yield identical text, and the
complete header assembly succeeds (is not the InvalidDescriptor failure)
and yields the same text on every call. -/
theorem generation_deterministic :
    createMetalSimdgroupEvent = createMetalSimdgroupEvent
    ∧ (∀ d : MemoryAccessDescriptor, createMemoryAccess d = createMemoryAccess d)
    ∧ createMetalSimdgroupMatrixStorage = createMetalSimdgroupMatrixStorage
    ∧ createMetalSimdgroupMatrixStorage.isSome = true :=
  ⟨rfl, fun _ => rfl, rfl, rfl⟩

/-- Claim C8: for stride > 1 (representable in the offset type) and any
origin, the two per-lane element addresses are distinct in the fixed-width
unsigned arithmetic of the offset type, both transposed and
non-transposed. -/
theorem address_distinctness :
    ∀ (w s x y : Nat), 0 < w → 1 < s → s < 2 ^ w →
      evalAddress w true 0 x y s ≠ evalAddress w true 1 x y s
      ∧ evalAddress w false 0 x y s ≠ evalAddress w false 1 x y s := by
  intro w s x y hw hs hsw
  constructor
  · intro h
    rw [evalAddress_eq, evalAddress_eq, if_pos rfl, if_pos rfl] at h
    have e0 : (x + 0) * s + y = (x * s + y) + 0 := by ring
    have e1 : (x + 1) * s + y = (x * s + y) + s := by ring
    rw [e0, e1] at h
    have h0 : (0 : Nat) ≡ s [MOD 2 ^ w] := Nat.ModEq.add_left_cancel' _ h
    have hdvd : 2 ^ w ∣ s := Nat.modEq_zero_iff_dvd.1 h0.symm
    have := Nat.le_of_dvd (by omega) hdvd
    omega
  · intro h
    rw [evalAddress_eq, evalAddress_eq, if_neg (by simp), if_neg (by simp)] at h
    have e0 : y * s + (x + 0) = (y * s + x) + 0 := by ring
    have e1 : y * s + (x + 1) = (y * s + x) + 1 := by ring
    rw [e0, e1] at h
    have h0 : (0 : Nat) ≡ 1 [MOD 2 ^ w] := Nat.ModEq.add_left_cancel' _ h
    have hdvd : 2 ^ w ∣ 1 := Nat.modEq_zero_iff_dvd.1 h0.symm
    have hle := Nat.le_of_dvd (by omega) hdvd
    have : 1 < 2 ^ w := Nat.one_lt_two_pow_iff.2 (by omega)
    omega

/-- Claim C8 witness: concrete instance at w = 32, stride 4, origin (7, 9). -/
theorem address_distinctness_witness :
    (0 : Nat) < 32 ∧ (1 : Nat) < 4 ∧ (4 : Nat) < 2 ^ 32
    ∧ evalAddress 32 true 0 7 9 4 ≠ evalAddress 32 true 1 7 9 4
    ∧ evalAddress 32 false 0 7 9 4 ≠ evalAddress 32 false 1 7 9 4 :=
  ⟨by decide, by decide, by norm_num,
   (address_distinctness 32 4 7 9 (by decide) (by decide) (by norm_num)).1,
   (address_distinctness 32 4 7 9 (by decide) (by decide) (by norm_num)).2⟩

/-- Claim C9: every non-whitespace body fragment is emitted with a trailing
`;`, every whitespace-only fragment (including the empty string) becomes a
blank line with no terminator, and the descriptor's indentation is applied
uniformly to every emitted line. -/
theorem text_assembly_contract :
    (∀ body block : List String,
      insertBlockContents body block = body ++ formattedBlock block)
    ∧ (∀ line : String,
        allCharactersWhitespace line = line.toList.all isspaceChar)
    ∧ (∀ (ind : String) (body : List String),
        renderBody ind body
        = String.join (body.map (fun l => ind ++ "  " ++ l ++ "\n"))) :=
  ⟨insertBlockContents_eq, allCharactersWhitespace_eq, renderBody_eq⟩

/-- Claim C10: in the device apply_offset helper the origin-stride product
is computed in 32-bit unsigned arithmetic before widening, so whenever the
product reaches 2^32 the resulting offset is the product reduced modulo
2^32 plus the other origin component, not the full-range product. -/
theorem apply_offset_truncation :
    ∀ x y epr : Nat, 2 ^ 32 ≤ x * epr → 2 ^ 32 ≤ y * epr →
      (apply_offset_device x y epr true = (x * epr) % 2 ^ 32 + y
       ∧ apply_offset_device x y epr true ≠ x * epr + y)
      ∧ (apply_offset_device x y epr false = (y * epr) % 2 ^ 32 + x
         ∧ apply_offset_device x y epr false ≠ y * epr + x) := by
  intro x y epr hx hy
  refine ⟨⟨rfl, ?_⟩, ⟨rfl, ?_⟩⟩
  · unfold apply_offset_device
    rw [if_pos rfl]
    generalize x * epr = p at hx ⊢
    omega
  · unfold apply_offset_device
    rw [if_neg (by simp)]
    generalize y * epr = p at hy ⊢
    omega

/-- Claim C10 witness: at origin (2^16, 2^16) and stride 2^16 the product is
exactly 2^32 and the computed offset differs from the full-range product. -/
theorem apply_offset_truncation_witness :
    2 ^ 32 ≤ 2 ^ 16 * 2 ^ 16
    ∧ apply_offset_device (2 ^ 16) (2 ^ 16) (2 ^ 16) true
        ≠ 2 ^ 16 * 2 ^ 16 + 2 ^ 16 :=
  ⟨by norm_num,
   ((apply_offset_truncation (2 ^ 16) (2 ^ 16) (2 ^ 16)
      (by norm_num) (by norm_num)).1).2⟩

end MFA
